import Mathlib

/-!
Verification development for the go-binding request-to-structure binder
(src/binder.go).  The Go code is shallowly embedded: Go structs become a
type descriptor (`Ftype`/`Fld`, mirroring `reflect.Type` plus the struct
tags) together with a runtime value (`Value`, mirroring `reflect.Value`),
and each Go function of binder.go becomes a Lean function over these.

Go specifics that matter to the embedding:
* `Errors` is a slice of `Error` with a pointer-receiver `Add` that does
  `*e = append(*e, ...)` (the file errors.go is not part of src/; the
  Errors type is modelled from the spec, which describes it as an ordered
  append-only sequence exposing append).  A Go function that receives an
  `Errors` parameter receives a copy of the slice header, so `Add` calls
  made by a callee mutate only the callee's local copy and are invisible
  to the caller.  The embedding makes this explicit: every embedded
  function returns the final state of its own local `errors` variable,
  and callers that pass the accumulator by value ignore the callee's
  returned accumulator, exactly as the Go data flow does.
* Machine integers are embedded as `Int`/`Nat` with explicit wrapping at
  the declared bit width where `reflect.Value.SetInt`/`SetUint` truncate.
* Floating point values, the email/url regular expressions, and the
  printing of floats/files by `fmt.Sprintf("%v", ...)` are abstracted
  into an `Ext` record of collaborator functions; no claim depends on
  their behaviour, and all theorems hold for every instantiation.
-/

namespace Binder

/-! ## Errors (modelled from the spec; errors.go is not under src/) -/

/-- One structured field error: `Error{FieldNames, Classification, Message}`.
Modelled from the spec: "Field Error: {ordered sequence of field-name labels,
classification tag, human-readable message}; equality is purely structural"
(errors.go itself is not in src/, only binder.go uses it). -/
structure Err where
  fieldNames : List String
  classification : String
  message : String
deriving DecidableEq, Repr

/-- Modelled from the spec: the Error Accumulator is "an ordered, append-only
sequence of Field Error". -/
abbrev Errors := List Err

/-- Modelled from the spec: `Errors.Add` appends one structured error
(`*e = append(*e, Error{...})`, pointer receiver). -/
def addErr (errs : Errors) (fieldNames : List String)
    (classification message : String) : Errors :=
  errs ++ [⟨fieldNames, classification, message⟩]

/-- Modelled from the spec's error taxonomy (§7): the classification tags. -/
def ContentTypeError : String := "ContentTypeError"

def DeserializationError : String := "DeserializationError"

def IntegerTypeError : String := "IntegerTypeError"

def BooleanTypeError : String := "BooleanTypeError"

def FloatTypeError : String := "FloatTypeError"

def RequiredError : String := "RequiredError"

def AlphaDashError : String := "AlphaDashError"

def AlphaDashDotError : String := "AlphaDashDotError"

def MinSizeError : String := "MinSizeError"

def MaxSizeError : String := "MaxSizeError"

def EmailError : String := "EmailError"

def UrlError : String := "UrlError"

/-- Constant `ErrorEmptyContentType` from binder.go line 17. -/
def ErrorEmptyContentType : Err := ⟨[], ContentTypeError, "Empty Content-Type"⟩

/-- Constant `ErrorUnsupportedContentType` from binder.go line 18. -/
def ErrorUnsupportedContentType : Err :=
  ⟨[], ContentTypeError, "Unsupported Content-Type"⟩

/-- Constant `ErrorInputNotByReference` from binder.go line 19. -/
def ErrorInputNotByReference : Err :=
  ⟨[], DeserializationError, "input binding model is not by reference"⟩

/-- Constant `ErrorInputIsNotStructure` from binder.go line 20. -/
def ErrorInputIsNotStructure : Err :=
  ⟨[], DeserializationError, "binding model is required to be structure"⟩

/-! ## strconv: ParseInt / ParseUint / ParseBool, base 10, bit size 64 -/

/-- Value of a non-empty all-decimal-digit character list, else `none`
(the digit part of `strconv.ParseInt(s, 10, _)`). -/
def digitsVal : List Char → Option Nat
  | [] => none
  | cs =>
    if cs.all Char.isDigit then
      some (cs.foldl (fun a c => a * 10 + (c.toNat - 48)) 0)
    else none

/-- Embeds `strconv.ParseInt(s, 10, 64)`: optional single sign, decimal digits,
64-bit signed range check (out of range is an error, as the code only
tests `err != nil`). -/
def goParseInt64 (s : String) : Option Int :=
  match s.data with
  | [] => none
  | c :: rest =>
    if c = '+' then
      (digitsVal rest).bind fun n =>
        if (n : Int) ≤ 2 ^ 63 - 1 then some (n : Int) else none
    else if c = '-' then
      (digitsVal rest).bind fun n =>
        if (n : Int) ≤ 2 ^ 63 then some (-(n : Int)) else none
    else
      (digitsVal (c :: rest)).bind fun n =>
        if (n : Int) ≤ 2 ^ 63 - 1 then some (n : Int) else none

/-- Embeds `strconv.ParseUint(s, 10, 64)`: no sign permitted, decimal digits,
64-bit unsigned range check. -/
def goParseUint64 (s : String) : Option Nat :=
  (digitsVal s.data).bind fun n => if n ≤ 2 ^ 64 - 1 then some n else none

/-- Embeds `strconv.ParseBool`: accepts exactly 1/t/T/TRUE/true/True and
0/f/F/FALSE/false/False. -/
def goParseBool (s : String) : Option Bool :=
  if s = "1" ∨ s = "t" ∨ s = "T" ∨ s = "TRUE" ∨ s = "true" ∨ s = "True" then
    some true
  else if s = "0" ∨ s = "f" ∨ s = "F" ∨ s = "FALSE" ∨ s = "false" ∨ s = "False" then
    some false
  else none

/-- Two's-complement truncation performed by `reflect.Value.SetInt` when the
field is narrower than 64 bits (`int8(x)`, `int16(x)`, ...). -/
def wrapSigned (bits : Nat) (x : Int) : Int :=
  let m := x % (2 ^ bits : Int)
  if m < 2 ^ (bits - 1) then m else m - 2 ^ bits

/-- Truncation performed by `reflect.Value.SetUint` (`uint8(x)`, ...). -/
def wrapUnsigned (bits : Nat) (x : Nat) : Nat := x % 2 ^ bits

/-- Whether `sub` is a prefix of `s` (character lists). -/
def listStartsWith : List Char → List Char → Bool
  | _, [] => true
  | [], _ :: _ => false
  | a :: as, b :: bs => a = b && listStartsWith as bs

/-- Whether `sub` occurs in `s` at some position. -/
def listContainsSub : List Char → List Char → Bool
  | [], sub => sub.isEmpty
  | c :: rest, sub => listStartsWith (c :: rest) sub || listContainsSub rest sub

/-- Embeds `strings.Contains` (the content types compared here are ASCII). -/
def goContains (s sub : String) : Bool :=
  listContainsSub s.data sub.data

/-- Embeds `strings.Split(s, ";")`: splitting on a single character, yielding
`[""]` for the empty string like Go does. -/
def splitSemiAux : List Char → List Char → List String
  | [], acc => [String.mk acc.reverse]
  | c :: cs, acc =>
    if c = ';' then String.mk acc.reverse :: splitSemiAux cs []
    else splitSemiAux cs (c :: acc)

/-- Embeds `strings.Split(tag, ";")`. -/
def splitSemi (s : String) : List String :=
  splitSemiAux s.data []

/-! ## The declared shape of a target record (reflect.Type + tags) -/

mutual
/-- The semantic type of one field, mirroring the `reflect.Kind`s the code
dispatches on.  `fInt 64` stands for both `int` and `int64` (the code treats
all signed kinds alike up to the `SetInt` truncation width), likewise
`fUint`/`fFloat`.  `fFile` is `*multipart.FileHeader`. -/
inductive Ftype where
  | fInt : Nat → Ftype
  | fUint : Nat → Ftype
  | fBool : Ftype
  | fFloat : Nat → Ftype
  | fString : Ftype
  | fFile : Ftype
  | fSlice : Ftype → Ftype
  | fPtr : Ftype → Ftype
  | fStruct : List Fld → Ftype

/-- One declared struct field: name, `form` tag, `binding` tag, whether it is
anonymous (embedded), whether it is exported (unexported fields are not
settable and not interfaceable), and its type. -/
inductive Fld where
  | mk : String → String → String → Bool → Bool → Ftype → Fld
end

/-- Field name (`reflect.StructField.Name`). -/
def Fld.name : Fld → String
  | .mk n _ _ _ _ _ => n

/-- The `form:"..."` tag value (`""` when absent). -/
def Fld.formTag : Fld → String
  | .mk _ t _ _ _ _ => t

/-- The `binding:"..."` tag value (`""` when absent). -/
def Fld.bindingTag : Fld → String
  | .mk _ _ b _ _ _ => b

/-- Embeds `reflect.StructField.Anonymous`. -/
def Fld.anonymous : Fld → Bool
  | .mk _ _ _ a _ _ => a

/-- Whether the field is exported (`CanSet`/`CanInterface` succeed). -/
def Fld.exported : Fld → Bool
  | .mk _ _ _ _ e _ => e

/-- The field's type. -/
def Fld.ty : Fld → Ftype
  | .mk _ _ _ _ _ t => t

/-- A runtime value (reflect.Value).  Slices distinguish Go's nil slice
(`vSlice none`) from a non-nil slice, as `reflect.DeepEqual` does; `vFileNil`
is a nil `*multipart.FileHeader`; a non-nil file header is an opaque
identity `vFile k`. -/
inductive Value where
  | vInt : Int → Value
  | vUint : Nat → Value
  | vBool : Bool → Value
  | vFloat : Rat → Value
  | vString : String → Value
  | vFile : Nat → Value
  | vFileNil : Value
  | vSlice : Option (List Value) → Value
  | vStruct : List Value → Value
  | vPtr : Option Value → Value

/-- Abstracted collaborators: `strconv.ParseFloat` (with its bit size), and
the `fmt.Sprintf("%v", ...)` rendering of floats and file headers, and the
email/url regular expression matchers.  No claim depends on these, and the
theorems hold for every instantiation. -/
structure Ext where
  parseFloat : String → Nat → Option Rat
  floatStr : Rat → String
  fileStr : Nat → String
  emailMatch : String → Bool
  urlMatch : String → Bool

/-- A concrete instantiation of the abstracted collaborators, used to state
closed (fully evaluated) theorems. -/
def ext0 : Ext where
  parseFloat := fun _ _ => none
  floatStr := fun _ => "0"
  fileStr := fun _ => "file"
  emailMatch := fun _ => false
  urlMatch := fun _ => false

mutual
/-- Embeds `reflect.Zero(t)`: the zero value of a type (nil for pointers, slices and
file headers, zero-filled for structs). -/
def zeroVal : Ftype → Value
  | .fInt _ => .vInt 0
  | .fUint _ => .vUint 0
  | .fBool => .vBool false
  | .fFloat _ => .vFloat 0
  | .fString => .vString ""
  | .fFile => .vFileNil
  | .fSlice _ => .vSlice none
  | .fPtr _ => .vPtr none
  | .fStruct fs => .vStruct (zeroFields fs)

/-- Zero values of a field list. -/
def zeroFields : List Fld → List Value
  | [] => []
  | .mk _ _ _ _ _ t :: fs => zeroVal t :: zeroFields fs
end

mutual
/-- Embeds `reflect.DeepEqual` on embedded values: structural equality that follows
pointers (two non-nil pointers are deep-equal iff their pointees are) and
distinguishes nil slices from non-nil ones. -/
def deepEqual : Value → Value → Bool
  | .vInt a, .vInt b => a = b
  | .vUint a, .vUint b => a = b
  | .vBool a, .vBool b => a = b
  | .vFloat a, .vFloat b => a = b
  | .vString a, .vString b => a = b
  | .vFile a, .vFile b => a = b
  | .vFileNil, .vFileNil => true
  | .vSlice none, .vSlice none => true
  | .vSlice (some xs), .vSlice (some ys) => deepEqualList xs ys
  | .vStruct xs, .vStruct ys => deepEqualList xs ys
  | .vPtr none, .vPtr none => true
  | .vPtr (some a), .vPtr (some b) => deepEqual a b
  | _, _ => false

/-- Elementwise `deepEqual` on value lists of equal length. -/
def deepEqualList : List Value → List Value → Bool
  | [], [] => true
  | x :: xs, y :: ys => deepEqual x y && deepEqualList xs ys
  | _, _ => false
end

/-- Length of a Go slice value (`reflect.Value.Len`, 0 for a nil slice). -/
def sliceLen : Option (List Value) → Nat
  | none => 0
  | some xs => xs.length

/-- Whether a type's kind is `reflect.Struct`. -/
def isStructTy : Ftype → Bool
  | .fStruct _ => true
  | _ => false

/-- Whether a type's kind is `reflect.Ptr`. -/
def isPtrTy : Ftype → Bool
  | .fPtr _ => true
  | _ => false

/-- Whether a type is a pointer whose element kind is `reflect.Struct`. -/
def isPtrStructTy : Ftype → Bool
  | .fPtr (.fStruct _) => true
  | _ => false

/-! ## setWithProperType (binder.go lines 336-396) -/

/-- Embeds `setWithProperType(valueKind, val, structField, nameInTag, errors)`.
Returns the new field value and the final state of the function's local
`errors` variable.  Go passes the `Errors` slice by value, so the returned
accumulator is invisible to the caller (see the header comment); callers in
`mapForm` therefore use only the first component. -/
def setWithProperType (ext : Ext) (kind : Ftype) (val : String) (field : Value)
    (nameInTag : String) (errs : Errors) : Value × Errors :=
  match kind with
  | .fInt bits =>
    let v := if val = "" then "0" else val
    match goParseInt64 v with
    | none =>
      (field, addErr errs [nameInTag] IntegerTypeError
        "Value could not be parsed as integer")
    | some n => (.vInt (wrapSigned bits n), errs)
  | .fUint bits =>
    let v := if val = "" then "0" else val
    match goParseUint64 v with
    | none =>
      (field, addErr errs [nameInTag] IntegerTypeError
        "Value could not be parsed as unsigned integer")
    | some n => (.vUint (wrapUnsigned bits n), errs)
  | .fBool =>
    if val = "on" then (.vBool true, errs)
    else
      let v := if val = "" then "false" else val
      match goParseBool v with
      | none =>
        (field, addErr errs [nameInTag] BooleanTypeError
          "Value could not be parsed as boolean")
      | some b => if b then (.vBool true, errs) else (field, errs)
  | .fFloat bits =>
    let v := if val = "" then "0.0" else val
    match ext.parseFloat v bits with
    | none =>
      (field, addErr errs [nameInTag] FloatTypeError
        (if bits = 32 then "Value could not be parsed as 32-bit float"
         else "Value could not be parsed as 64-bit float"))
    | some f => (.vFloat f, errs)
  | .fString => (.vString val, errs)
  | _ => (field, errs)

/-! ## mapForm (binder.go lines 275-330) -/

/-- Lookup in one of the two input-bag mappings (`form[key]` with the
two-result form: `none` models `exists == false`). -/
def bagLookup (bag : List (String × List α)) (k : String) : Option (List α) :=
  (bag.find? (fun p => p.1 = k)).map (·.2)

/-- The third branch of the `mapForm` field loop (binder.go lines 292-327):
a field addressed by its `form` tag.  `canSet` is whether the surrounding
struct is settable through the access path (false once an unexported field
has been crossed).  The two places where Go would read `inputValue[0]` of an
empty list panic; `url.Values`/multipart parsing never produce a key mapped
to an empty list, and the embedding leaves the field unchanged there. -/
def mapTagged (ext : Ext) (form : List (String × List String))
    (files : List (String × List Nat)) (canSet : Bool) (ftag : String)
    (ex : Bool) (ty : Ftype) (x : Value) : Value :=
  if ftag = "" then x
  else if !(canSet && ex) then x
  else
    match bagLookup form ftag with
    | some vals =>
      match ty with
      | .fSlice et =>
        if vals.length > 0 then
          .vSlice (some (vals.map fun s =>
            (setWithProperType ext et s (zeroVal et) ftag []).1))
        else x
      | ty =>
        match vals with
        | [] => x
        | s :: _ => (setWithProperType ext ty s x ftag []).1
    | none =>
      match bagLookup files ftag with
      | none => x
      | some fhs =>
        match ty with
        | .fSlice .fFile =>
          if fhs.length > 0 then .vSlice (some (fhs.map Value.vFile)) else x
        | .fFile =>
          match fhs with
          | [] => x
          | fh :: _ => .vFile fh
        | _ => x

mutual
/-- Embeds `mapForm(formStruct, form, formfile, errors)`.  Returns the new value of
the struct; the `errors` accumulator it received is returned to the caller
unchanged because `mapForm` itself never calls `Add` — every `Add` happens
inside `setWithProperType`, whose local copy of the slice header is
discarded (Go passes `Errors` by value), so the embedding returns only the
value.  On a non-struct argument Go would panic in `typ.NumField()`; that
case is unreachable from the entry points and modelled as the identity. -/
def mapForm (ext : Ext) (form : List (String × List String))
    (files : List (String × List Nat)) (canSet : Bool) :
    Ftype → Value → Value
  | .fStruct fs, .vStruct xs => .vStruct (mapFields ext form files canSet fs xs)
  | _, v => v

/-- The field loop of `mapForm` (binder.go lines 280-329). -/
def mapFields (ext : Ext) (form : List (String × List String))
    (files : List (String × List Nat)) (canSet : Bool) :
    List Fld → List Value → List Value
  | [], _ => []
  | _ :: _, [] => []
  | f :: fs, x :: xs =>
    mapField ext form files canSet f x :: mapFields ext form files canSet fs xs

/-- One iteration of the `mapForm` field loop.  The anonymous-pointer branch
(lines 284-289) unconditionally overwrites the pointer with a freshly
allocated zero record, recurses into it, and resets the pointer to nil when
the recursion left every reachable field at its zero value. -/
def mapField (ext : Ext) (form : List (String × List String))
    (files : List (String × List Nat)) (canSet : Bool) :
    Fld → Value → Value
  | .mk _ ftag _ anon ex ty, x =>
    match ty with
    | .fPtr inner =>
      if anon then
        let m := mapForm ext form files (canSet && ex) inner (zeroVal inner)
        if deepEqual m (zeroVal inner) then .vPtr none else .vPtr (some m)
      else mapTagged ext form files canSet ftag ex (.fPtr inner) x
    | .fStruct gs => mapForm ext form files (canSet && ex) (.fStruct gs) x
    | ty => mapTagged ext form files canSet ftag ex ty x
end

/-! ## validateStruct (binder.go lines 184-272) -/

/-- Pattern `[^\d\w-_]` (the alphaDashPattern) matches the string: some character is
outside `[0-9A-Za-z_-]`. -/
def alphaDashHit (s : String) : Bool :=
  s.data.any fun c => !(c.isAlphanum || c = '_' || c = '-')

/-- Pattern `[^\d\w-_\.]` (the alphaDashDotPattern) matches the string. -/
def alphaDashDotHit (s : String) : Bool :=
  s.data.any fun c => !(c.isAlphanum || c = '_' || c = '-' || c = '.')

mutual
/-- Embeds `fmt.Sprintf("%v", value)`: decimal for integers, `true`/`false` for
booleans, the string itself for strings, `[elems...]` for slices,
`{fields...}` for structs, `&...` for non-nil pointers and `<nil>` for nil
ones; floats and file headers are rendered by the abstracted collaborators. -/
def sprintfV (ext : Ext) : Value → String
  | .vInt n => toString n
  | .vUint n => toString n
  | .vBool b => if b then "true" else "false"
  | .vFloat q => ext.floatStr q
  | .vString s => s
  | .vFile k => "&" ++ ext.fileStr k
  | .vFileNil => "<nil>"
  | .vSlice none => "[]"
  | .vSlice (some xs) => "[" ++ sprintfList ext xs ++ "]"
  | .vStruct xs => "\x7b" ++ sprintfList ext xs ++ "\x7d"
  | .vPtr none => "<nil>"
  | .vPtr (some x) => "&" ++ sprintfV ext x

/-- Space-separated rendering of the elements of a composite. -/
def sprintfList (ext : Ext) : List Value → String
  | [] => ""
  | [x] => sprintfV ext x
  | x :: xs => sprintfV ext x ++ " " ++ sprintfList ext xs
end

/-- The body of the `MinSize(N)` case (binder.go lines 233-243): a string is
measured by rune count, a slice value by length; other kinds never match. -/
def minSizeHit (name : String) (mn : Int) (x : Value) : Option Err :=
  match x with
  | .vString s =>
    if (s.length : Int) < mn then some ⟨[name], MinSizeError, "MinSize"⟩
    else none
  | .vSlice os =>
    if (sliceLen os : Int) < mn then some ⟨[name], MinSizeError, "MinSize"⟩
    else none
  | _ => none

/-- The body of the `MaxSize(N)` case (binder.go lines 244-254). -/
def maxSizeHit (name : String) (mx : Int) (x : Value) : Option Err :=
  match x with
  | .vString s =>
    if (s.length : Int) > mx then some ⟨[name], MaxSizeError, "MaxSize"⟩
    else none
  | .vSlice os =>
    if (sliceLen os : Int) > mx then some ⟨[name], MaxSizeError, "MaxSize"⟩
    else none
  | _ => none

/-- The error (if any) produced by one iteration of the rule-matching switch
(binder.go lines 212-268): `name` is the field's name, `ty` its static type
(for `reflect.Zero`), `x` its current value, `r` one rule from the split
`binding` tag.  Every switch case calls `errors.Add` at most once; this
helper computes that single potential error, and `ruleCheck` appends it. -/
def ruleHit (ext : Ext) (name : String) (ty : Ftype) (x : Value)
    (r : String) : Option Err :=
  if r.length = 0 then none
  else if r = "Required" then
    if deepEqual (zeroVal ty) x then some ⟨[name], RequiredError, "Required"⟩
    else none
  else if r = "AlphaDash" then
    if alphaDashHit (sprintfV ext x) then
      some ⟨[name], AlphaDashError, "AlphaDash"⟩
    else none
  else if r = "AlphaDashDot" then
    if alphaDashDotHit (sprintfV ext x) then
      some ⟨[name], AlphaDashDotError, "AlphaDashDot"⟩
    else none
  else if r.startsWith "MinSize(" then
    minSizeHit name ((goParseInt64 ((r.drop 8).dropRight 1)).getD 0) x
  else if r.startsWith "MaxSize(" then
    maxSizeHit name ((goParseInt64 ((r.drop 8).dropRight 1)).getD 0) x
  else if r = "Email" then
    if !ext.emailMatch (sprintfV ext x) then some ⟨[name], EmailError, "Email"⟩
    else none
  else if r = "Url" then
    if (sprintfV ext x).length = 0 then none
    else if !ext.urlMatch (sprintfV ext x) then some ⟨[name], UrlError, "Url"⟩
    else none
  else none

/-- One iteration of the rule-matching switch: append the rule's error, if
it fired, to the accumulator. -/
def ruleCheck (ext : Ext) (errs : Errors) (name : String) (ty : Ftype)
    (x : Value) (r : String) : Errors :=
  match ruleHit ext name ty x r with
  | some e => errs ++ [e]
  | none => errs

/-- The rule loop `for _, rule := range strings.Split(tag, ";")`. -/
def ruleLoop (ext : Ext) (errs : Errors) (name : String) (ty : Ftype)
    (x : Value) : List String → Errors
  | [] => errs
  | r :: rs => ruleLoop ext (ruleCheck ext errs name ty x r) name ty x rs

mutual
/-- Embeds `validateStruct(errors, obj)` (binder.go lines 184-272).  A pointer
argument is dereferenced once; the rule accumulator is threaded through the
field loop, and this function does return its accumulated errors to its
caller (Go returns the slice).  A non-struct argument after dereferencing
would panic in `typ.NumField()` and is modelled as returning the errors
unchanged (unreachable from the entry points). -/
def validateStruct (ext : Ext) (errs : Errors) : Ftype → Value → Errors
  | .fPtr t, .vPtr (some x) =>
    (match t, x with
     | .fStruct fs, .vStruct xs => validateFields ext errs fs xs
     | _, _ => errs)
  | .fStruct fs, .vStruct xs => validateFields ext errs fs xs
  | _, _ => errs

/-- The field loop of `validateStruct` (binder.go lines 193-270): skip
ignored (`form:"-"`) and unexported fields entirely; recurse into struct
fields and into non-nil pointer-to-struct fields *before* matching the
field's own rules. -/
def validateFields (ext : Ext) (errs : Errors) : List Fld → List Value → Errors
  | [], _ => errs
  | _ :: _, [] => errs
  | .mk name ftag btag _ ex ty :: fs, x :: xs =>
    let errs :=
      if ftag = "-" || !ex then errs
      else
        let errs :=
          if isStructTy ty || (isPtrTy ty && !deepEqual (zeroVal ty) x &&
              isPtrStructTy ty) then
            validateStruct ext errs ty x
          else errs
        ruleLoop ext errs name ty x (splitSemi btag)
    validateFields ext errs fs xs
end

/-- Embeds `validate(obj, req)` (binder.go lines 399-423).  The extensibility hook
(`Validator.ValidateBinder`) is abstracted as an optional function from the
in-flight accumulator to the folded result; Go detects it by a type
assertion on the (element) value, so it is a property of the target type.
For a slice target the built-in pass and the hook run per element on one
shared accumulator; otherwise they run once on the whole value. -/
def validate (ext : Ext) (hook : Option (Errors → Errors)) (ty : Ftype)
    (v : Value) : Errors :=
  let kd : Ftype × Value :=
    match ty, v with
    | .fPtr t, .vPtr (some x) => (t, x)
    | _, _ => (ty, v)
  match kd with
  | (.fSlice et, .vSlice (some elems)) =>
    elems.foldl (fun errs e =>
      let errs := validateStruct ext errs et e
      match hook with
      | some h => h errs
      | none => errs) []
  | _ =>
    let errs := validateStruct ext [] ty v
    match hook with
    | some h => h errs
    | none => errs

/-! ## The entry points: Form, MultipartForm, Bind dispatch -/

/-- What `Form` sees of the request: `req.ParseForm()`'s error, if any, and
the resulting `req.Form` mapping. -/
structure FormReq where
  parseErr : Option String
  form : List (String × List String)

/-- Embeds `Form(formStruct, req)` (binder.go lines 55-88) for a target of declared
type `outerTy` and current value `target`.  Returns the final value behind
the caller's pointer together with the returned `Errors`.  The errors
accumulated inside `mapForm`'s call tree never reach `bindErrors`: the
accumulator is a slice header passed by value (binder.go line 82 neither
passes a pointer nor uses a return value). -/
def Form (ext : Ext) (hook : Option (Errors → Errors)) (outerTy : Ftype)
    (target : Value) (req : FormReq) : Value × Errors :=
  match outerTy, target with
  | .fPtr t, .vPtr (some v0) =>
    -- reset element to zero variant: allocate through a nil inner pointer
    let tv : Ftype × Value :=
      match t, v0 with
      | .fPtr t2, .vPtr none => (.fPtr t2, .vPtr (some (zeroVal t2)))
      | _, _ => (t, v0)
    -- reflect.Indirect
    let tv : Ftype × Value :=
      match tv with
      | (.fPtr t2, .vPtr (some x)) => (t2, x)
      | p => p
    match tv with
    | (.fStruct fs, .vStruct xs) =>
      let bindErrors : Errors :=
        match req.parseErr with
        | some e => [⟨[], DeserializationError, e⟩]
        | none => []
      let v1 := mapForm ext req.form [] true (.fStruct fs) (.vStruct xs)
      let validateErrs := validate ext hook (.fStruct fs) v1
      (v1, bindErrors ++ validateErrs)
    | (_, v1) => (v1, [ErrorInputIsNotStructure])
  | .fPtr _, .vPtr none =>
    -- nil pointer: v.Elem() is invalid, not settable, Indirect stays invalid
    (target, [ErrorInputIsNotStructure])
  | _, _ => (target, [ErrorInputNotByReference])

/-- The parsed multipart form: the string-values and file-values mappings. -/
structure MPForm where
  value : List (String × List String)
  file : List (String × List Nat)

/-- What `MultipartForm` sees of the request: the upstream multipart state
`req.MultipartForm` (nil or populated), and — used only when that is nil —
the result of `req.MultipartReader()` followed by `ReadForm`: `.error e`
when the reader cannot be obtained, `.ok (form?, parseErr?)` for `ReadForm`'s
two results. -/
structure MPReq where
  multipartForm : Option MPForm
  readerResult : Except String (Option MPForm × Option String)

/-- Embeds `MultipartForm(formStruct, req)` (binder.go lines 94-135).  The result is
`none` when the Go code panics: after a reader error (or a `ReadForm` that
returned a nil form) `req.MultipartForm` is still nil, and line 129
dereferences it (`req.MultipartForm.Value`). -/
def MultipartForm (ext : Ext) (hook : Option (Errors → Errors))
    (outerTy : Ftype) (target : Value) (req : MPReq) :
    Option (Value × Errors) :=
  match outerTy, target with
  | .fPtr t, .vPtr (some v0) =>
    let tv : Ftype × Value :=
      match t, v0 with
      | .fPtr t2, .vPtr none => (.fPtr t2, .vPtr (some (zeroVal t2)))
      | _, _ => (t, v0)
    let tv : Ftype × Value :=
      match tv with
      | (.fPtr t2, .vPtr (some x)) => (t2, x)
      | p => p
    match tv with
    | (.fStruct fs, .vStruct xs) =>
      let state : Option MPForm × Errors :=
        match req.multipartForm with
        | some f => (some f, [])
        | none =>
          match req.readerResult with
          | .error e => (none, [⟨[], DeserializationError, e⟩])
          | .ok (form?, parseErr?) =>
            (form?,
             match parseErr? with
             | some pe => [⟨[], DeserializationError, pe⟩]
             | none => [])
      match state with
      | (none, _) => none
      | (some f, bindErrors) =>
        let v1 := mapForm ext f.value f.file true (.fStruct fs) (.vStruct xs)
        let validateErrs := validate ext hook (.fStruct fs) v1
        some (v1, bindErrors ++ validateErrs)
    | (_, v1) => some (v1, [ErrorInputIsNotStructure])
  | .fPtr _, .vPtr none => some (target, [ErrorInputIsNotStructure])
  | _, _ => some (target, [ErrorInputNotByReference])

/-- The decoding path `Bind` (binder.go lines 23-44) selects from the request
method and Content-Type header. -/
inductive Dispatch where
  | formPath
  | multipartPath
  | jsonPath
  | errEmpty
  | errUnsupported
deriving DecidableEq, Repr

/-- The dispatch structure of `Bind(obj, req)`: `errEmpty` stands for
returning `Errors` containing exactly `ErrorEmptyContentType`, and
`errUnsupported` for `ErrorUnsupportedContentType`. -/
def bindDispatch (method contentType : String) : Dispatch :=
  if method = "POST" ∨ method = "PUT" ∨ contentType ≠ "" then
    if goContains contentType "form-urlencoded" then .formPath
    else if goContains contentType "multipart/form-data" then .multipartPath
    else if goContains contentType "json" then .jsonPath
    else if contentType = "" then .errEmpty
    else .errUnsupported
  else .formPath

/-! ## Helper notions for the theorems -/

/-- A well-formed input bag never maps a key to an empty value list — this is
an invariant of `url.Values` produced by `ParseForm`/`ReadForm` (appending
parsers); on a malformed bag with an empty list Go's `inputValue[0]` would
panic where the embedding leaves the field unchanged. -/
def wfBag (bag : List (String × List α)) : Bool :=
  bag.all fun p => !p.2.isEmpty

/-- The field descriptor reached from a type by a path of field indices that
crosses only plain (non-pointer) struct fields. -/
def fieldAt : Ftype → List Nat → Option Fld
  | .fStruct fs, [i] => fs[i]?
  | .fStruct fs, i :: j :: rest => (fs[i]?).bind fun f => fieldAt f.ty (j :: rest)
  | _, _ => none

/-- The value reached by a path of field indices through struct values. -/
def valAt : Value → List Nat → Option Value
  | v, [] => some v
  | .vStruct xs, i :: rest => (xs[i]?).bind fun y => valAt y rest
  | _, _ :: _ => none

/-- The `mapForm` field loop maps fields index-wise. -/
theorem mapFields_get (ext : Ext) (form : List (String × List String))
    (files : List (String × List Nat)) (cs : Bool) :
    ∀ (fs : List Fld) (xs : List Value) (i : Nat) (f : Fld) (x : Value),
      fs[i]? = some f → xs[i]? = some x →
      (mapFields ext form files cs fs xs)[i]? =
        some (mapField ext form files cs f x)
  | [], _, i, f, x => by intro hf _; simp at hf
  | _ :: _, [], i, f, x => by intro _ hx; simp at hx
  | f0 :: fs, x0 :: xs, 0, f, x => by
    intro hf hx
    simp only [List.getElem?_cons_zero, Option.some.injEq] at hf hx
    subst hf; subst hx
    simp [mapFields]
  | f0 :: fs, x0 :: xs, i + 1, f, x => by
    intro hf hx
    simp only [List.getElem?_cons_succ] at hf hx
    simpa [mapFields] using mapFields_get ext form files cs fs xs i f x hf hx

/-- A tagged field whose key is in neither mapping is left unchanged. -/
theorem mapTagged_absent (ext : Ext) (form : List (String × List String))
    (files : List (String × List Nat)) (cs : Bool) (ftag : String) (ex : Bool)
    (ty : Ftype) (x : Value)
    (hform : bagLookup form ftag = none) (hfiles : bagLookup files ftag = none) :
    mapTagged ext form files cs ftag ex ty x = x := by
  unfold mapTagged
  split_ifs <;> simp [hform, hfiles]

/-- A non-struct, non-anonymous-pointer field whose key is in neither
mapping is left unchanged by one step of the `mapForm` loop. -/
theorem mapField_untouched (ext : Ext) (form : List (String × List String))
    (files : List (String × List Nat)) (cs : Bool) :
    ∀ (f : Fld) (x : Value),
      isStructTy f.ty = false → (f.anonymous && isPtrTy f.ty) = false →
      bagLookup form f.formTag = none → bagLookup files f.formTag = none →
      mapField ext form files cs f x = x
  | .mk nm ftag btag anon ex ty, x => by
    intro h1 h2 h3 h4
    simp only [Fld.ty] at h1
    simp only [Fld.anonymous, Fld.ty] at h2
    simp only [Fld.formTag] at h3 h4
    cases ty with
    | fStruct fs => simp [isStructTy] at h1
    | fPtr inner =>
      have ha : anon = false := by simpa [isPtrTy] using h2
      subst ha
      simp [mapField, mapTagged_absent ext form files cs ftag ex _ x h3 h4]
    | fInt bits =>
      simp [mapField, mapTagged_absent ext form files cs ftag ex _ x h3 h4]
    | fUint bits =>
      simp [mapField, mapTagged_absent ext form files cs ftag ex _ x h3 h4]
    | fBool =>
      simp [mapField, mapTagged_absent ext form files cs ftag ex _ x h3 h4]
    | fFloat bits =>
      simp [mapField, mapTagged_absent ext form files cs ftag ex _ x h3 h4]
    | fString =>
      simp [mapField, mapTagged_absent ext form files cs ftag ex _ x h3 h4]
    | fFile =>
      simp [mapField, mapTagged_absent ext form files cs ftag ex _ x h3 h4]
    | fSlice et =>
      simp [mapField, mapTagged_absent ext form files cs ftag ex _ x h3 h4]

/-- One rule check only appends to the accumulator it was given. -/
theorem ruleCheck_append (ext : Ext) (errs : Errors) (name : String)
    (ty : Ftype) (x : Value) (r : String) :
    ruleCheck ext errs name ty x r = errs ++ ruleCheck ext [] name ty x r := by
  unfold ruleCheck
  cases ruleHit ext name ty x r <;> simp

/-- The rule loop only appends to the accumulator it was given. -/
theorem ruleLoop_append (ext : Ext) (name : String) (ty : Ftype) (x : Value) :
    ∀ (rs : List String) (errs : Errors),
      ruleLoop ext errs name ty x rs = errs ++ ruleLoop ext [] name ty x rs
  | [], errs => by simp [ruleLoop]
  | r :: rs, errs => by
    simp only [ruleLoop]
    rw [ruleLoop_append ext name ty x rs (ruleCheck ext errs name ty x r),
      ruleLoop_append ext name ty x rs (ruleCheck ext [] name ty x r),
      ruleCheck_append]
    simp

/-- Whether the validator's field loop skips the field entirely
(`form:"-"` or unexported). -/
def skipField (f : Fld) : Bool :=
  f.formTag = "-" || !f.exported

/-- The condition under which the validator recurses into a field's value
(struct kind, or non-nil pointer to struct). -/
def nestedCond (f : Fld) (x : Value) : Bool :=
  isStructTy f.ty ||
    (isPtrTy f.ty && !deepEqual (zeroVal f.ty) x && isPtrStructTy f.ty)

/-- The nested-structure violations one field contributes. -/
def nestedErrsOf (ext : Ext) (f : Fld) (x : Value) : Errors :=
  if skipField f then []
  else if nestedCond f x then validateStruct ext [] f.ty x else []

/-- The built-in rule violations one field contributes. -/
def ruleErrsOf (ext : Ext) (f : Fld) (x : Value) : Errors :=
  if skipField f then []
  else ruleLoop ext [] f.name f.ty x (splitSemi f.bindingTag)

/-- Everything one field contributes to the validator pass: first the
violations found by recursing into its nested structure, then its own rule
violations — in the order the code discovers them. -/
def fieldErrs (ext : Ext) (f : Fld) (x : Value) : Errors :=
  nestedErrsOf ext f x ++ ruleErrsOf ext f x

mutual
/-- The function `validateStruct` only appends to the accumulator it was given. -/
theorem validateStruct_append (ext : Ext) (ty : Ftype) (v : Value)
    (errs : Errors) :
    validateStruct ext errs ty v = errs ++ validateStruct ext [] ty v := by
  unfold validateStruct
  split
  · split
    · exact validateFields_append ext _ _ errs
    · simp
  · exact validateFields_append ext _ _ errs
  · simp

/-- The `validateStruct` field loop only appends to its accumulator. -/
theorem validateFields_append (ext : Ext) (fs : List Fld) (xs : List Value)
    (errs : Errors) :
    validateFields ext errs fs xs = errs ++ validateFields ext [] fs xs := by
  match fs, xs with
  | [], _ => simp [validateFields]
  | _ :: _, [] => simp [validateFields]
  | .mk name ftag btag anon ex ty :: fs, x :: xs =>
    by_cases hskip : (ftag = "-" || !ex) = true
    · simp only [validateFields, hskip, if_true]
      exact validateFields_append ext fs xs errs
    · by_cases hnest :
          (isStructTy ty ||
            (isPtrTy ty && !deepEqual (zeroVal ty) x && isPtrStructTy ty)) = true
      · simp only [validateFields, hskip, hnest, Bool.false_eq_true, if_true, if_false]
        rw [validateFields_append ext fs xs
            (ruleLoop ext (validateStruct ext errs ty x) name ty x
              (splitSemi btag)),
          validateFields_append ext fs xs
            (ruleLoop ext (validateStruct ext [] ty x) name ty x
              (splitSemi btag)),
          validateStruct_append ext ty x errs,
          ruleLoop_append ext name ty x (splitSemi btag)
            (errs ++ validateStruct ext [] ty x),
          ruleLoop_append ext name ty x (splitSemi btag)
            (validateStruct ext [] ty x)]
        simp
      · simp only [validateFields, hskip, hnest, Bool.false_eq_true, if_true, if_false]
        rw [validateFields_append ext fs xs
            (ruleLoop ext errs name ty x (splitSemi btag)),
          validateFields_append ext fs xs
            (ruleLoop ext [] name ty x (splitSemi btag)),
          ruleLoop_append ext name ty x (splitSemi btag) errs]
        simp
end

/-- One step of the validator's field loop: the errors already accumulated,
then the field's nested violations, then its rule violations, then the rest
of the loop. -/
theorem validateFields_cons (ext : Ext) (f : Fld) (x : Value) (fs : List Fld)
    (xs : List Value) (errs : Errors) :
    validateFields ext errs (f :: fs) (x :: xs) =
      errs ++ fieldErrs ext f x ++ validateFields ext [] fs xs := by
  match f with
  | .mk name ftag btag anon ex ty =>
    unfold fieldErrs nestedErrsOf ruleErrsOf skipField nestedCond
    simp only [Fld.formTag, Fld.exported, Fld.ty, Fld.name, Fld.bindingTag]
    by_cases hskip : (ftag = "-" || !ex) = true
    · simp only [validateFields, hskip, if_true]
      rw [validateFields_append ext fs xs errs]
      simp
    · by_cases hnest :
          (isStructTy ty ||
            (isPtrTy ty && !deepEqual (zeroVal ty) x && isPtrStructTy ty)) = true
      · simp only [validateFields, hskip, hnest, Bool.false_eq_true, if_true, if_false]
        rw [validateFields_append ext fs xs
            (ruleLoop ext (validateStruct ext errs ty x) name ty x
              (splitSemi btag)),
          validateStruct_append ext ty x errs,
          ruleLoop_append ext name ty x (splitSemi btag)
            (errs ++ validateStruct ext [] ty x)]
        simp
      · simp only [validateFields, hskip, hnest, Bool.false_eq_true, if_true, if_false]
        rw [validateFields_append ext fs xs
            (ruleLoop ext errs name ty x (splitSemi btag)),
          ruleLoop_append ext name ty x (splitSemi btag) errs]
        simp

/-! ## Counting RequiredError entries naming a given field -/

/-- Number of errors in a list that are a `RequiredError` naming exactly the
field `n`. -/
def countReqNamed (n : String) (errs : Errors) : Nat :=
  (errs.filter fun e =>
    e.classification == RequiredError && e.fieldNames == [n]).length

/-- Counting distributes over append. -/
theorem countReq_append (n : String) (a b : Errors) :
    countReqNamed n (a ++ b) = countReqNamed n a + countReqNamed n b := by
  simp [countReqNamed, List.filter_append]

/-- A `MinSize` hit is always classified `MinSizeError`. -/
theorem minSizeHit_classification (name : String) (mn : Int) (x : Value) :
    ∀ e, minSizeHit name mn x = some e → e.classification = MinSizeError := by
  intro e he
  cases x <;> simp only [minSizeHit] at he <;> (try split_ifs at he) <;>
    first
      | (injection he with he2
         subst he2
         rfl)
      | injection he

/-- A `MaxSize` hit is always classified `MaxSizeError`. -/
theorem maxSizeHit_classification (name : String) (mx : Int) (x : Value) :
    ∀ e, maxSizeHit name mx x = some e → e.classification = MaxSizeError := by
  intro e he
  cases x <;> simp only [maxSizeHit] at he <;> (try split_ifs at he) <;>
    first
      | (injection he with he2
         subst he2
         rfl)
      | injection he

/-- A rule other than `Required` never produces a `RequiredError`. -/
theorem ruleHit_not_required (ext : Ext) (name : String) (ty : Ftype)
    (x : Value) (r : String) (h : r ≠ "Required") :
    ∀ e, ruleHit ext name ty x r = some e → e.classification ≠ RequiredError := by
  intro e he
  unfold ruleHit at he
  generalize sprintfV ext x = sv at he
  generalize r.startsWith "MinSize(" = b3 at he
  generalize r.startsWith "MaxSize(" = b4 at he
  by_cases h0 : r.length = 0
  · rw [if_pos h0] at he
    exact absurd he (by simp)
  rw [if_neg h0, if_neg h] at he
  by_cases c1 : r = "AlphaDash"
  · rw [if_pos c1] at he
    by_cases d1 : alphaDashHit sv = true
    · rw [if_pos d1] at he
      injection he with he2
      subst he2
      simp [AlphaDashError, RequiredError]
    · rw [if_neg d1] at he
      exact absurd he (by simp)
  rw [if_neg c1] at he
  by_cases c2 : r = "AlphaDashDot"
  · rw [if_pos c2] at he
    by_cases d2 : alphaDashDotHit sv = true
    · rw [if_pos d2] at he
      injection he with he2
      subst he2
      simp [AlphaDashDotError, RequiredError]
    · rw [if_neg d2] at he
      exact absurd he (by simp)
  rw [if_neg c2] at he
  by_cases c3 : b3 = true
  · rw [if_pos c3] at he
    have hcl := minSizeHit_classification _ _ _ e he
    simp [hcl, MinSizeError, RequiredError]
  rw [if_neg c3] at he
  by_cases c4 : b4 = true
  · rw [if_pos c4] at he
    have hcl := maxSizeHit_classification _ _ _ e he
    simp [hcl, MaxSizeError, RequiredError]
  rw [if_neg c4] at he
  by_cases c5 : r = "Email"
  · rw [if_pos c5] at he
    by_cases d5 : (!ext.emailMatch sv) = true
    · rw [if_pos d5] at he
      injection he with he2
      subst he2
      simp [EmailError, RequiredError]
    · rw [if_neg d5] at he
      exact absurd he (by simp)
  rw [if_neg c5] at he
  by_cases c6 : r = "Url"
  · rw [if_pos c6] at he
    by_cases d6 : sv.length = 0
    · rw [if_pos d6] at he
      exact absurd he (by simp)
    · rw [if_neg d6] at he
      by_cases d7 : (!ext.urlMatch sv) = true
      · rw [if_pos d7] at he
        injection he with he2
        subst he2
        simp [UrlError, RequiredError]
      · rw [if_neg d7] at he
        exact absurd he (by simp)
  rw [if_neg c6] at he
  exact absurd he (by simp)

/-- The `RequiredError`s-naming-`n` contributed by one rule check on a fresh
accumulator. -/
theorem countReq_ruleCheck (ext : Ext) (n name : String) (ty : Ftype)
    (x : Value) (r : String) :
    countReqNamed n (ruleCheck ext [] name ty x r) =
      if r = "Required" ∧ deepEqual (zeroVal ty) x = true ∧ n = name then 1
      else 0 := by
  unfold ruleCheck
  by_cases h1 : r = "Required"
  · subst h1
    have e0 : ¬("Required" : String).length = 0 := by decide
    unfold ruleHit
    rw [if_neg e0, if_pos rfl]
    by_cases h2 : deepEqual (zeroVal ty) x = true
    · rw [if_pos h2]
      simp only [h2, true_and]
      by_cases h3 : n = name
      · subst h3
        simp [countReqNamed, RequiredError]
      · have h3' : ¬(name = n) := fun hh => h3 hh.symm
        rw [if_neg h3]
        simp [countReqNamed, RequiredError, h3']
    · rw [if_neg h2]
      simp [h2, countReqNamed]
  · cases hh : ruleHit ext name ty x r with
    | none =>
      rw [if_neg (fun hc => h1 hc.1)]
      simp [countReqNamed]
    | some e =>
      have hne := ruleHit_not_required ext name ty x r h1 e hh
      rw [if_neg (fun hc => h1 hc.1)]
      have hfe : (e.classification == RequiredError &&
          e.fieldNames == [n]) = false := by
        simp [beq_iff_eq, hne]
      simp [countReqNamed, List.filter, hfe]

/-- The `RequiredError`s-naming-`n` contributed by a whole rule loop on a
fresh accumulator. -/
theorem countReq_ruleLoop (ext : Ext) (n name : String) (ty : Ftype)
    (x : Value) :
    ∀ (rs : List String),
      countReqNamed n (ruleLoop ext [] name ty x rs) =
        if deepEqual (zeroVal ty) x = true ∧ n = name then rs.count "Required"
        else 0
  | [] => by simp [ruleLoop, countReqNamed]
  | r :: rs => by
    simp only [ruleLoop]
    rw [ruleLoop_append ext name ty x rs (ruleCheck ext [] name ty x r),
      countReq_append, countReq_ruleCheck,
      countReq_ruleLoop ext n name ty x rs]
    by_cases h2 : deepEqual (zeroVal ty) x = true
    · by_cases h3 : n = name
      · simp only [h2, h3, and_true, true_and, and_self, if_true]
        by_cases h1 : r = "Required"
        · subst h1
          rw [List.count_cons]
          simp only [beq_self_eq_true, if_true]
          omega
        · have h1b : (r == "Required") = false := by
            simpa [beq_iff_eq] using h1
          have h1c : (("Required" : String) == r) = false := by
            simp only [beq_eq_false_iff_ne, ne_eq]
            exact fun hh => h1 hh.symm
          rw [List.count_cons]
          simp only [h1, h1b, h1c, Bool.false_eq_true, if_false, add_zero,
            false_and, Nat.zero_add]
      · simp [h3]
    · simp [h2]

/-- If every field of the loop contributes no `RequiredError` naming `n`,
the loop result contains none. -/
theorem countReq_fields_outside (ext : Ext) (n : String) :
    ∀ (fs : List Fld) (xs : List Value),
      (∀ (j : Nat) (g : Fld) (y : Value), fs[j]? = some g → xs[j]? = some y →
        countReqNamed n (fieldErrs ext g y) = 0) →
      countReqNamed n (validateFields ext [] fs xs) = 0
  | [], xs, h => rfl
  | f :: fs, [], h => by
    simp only [validateFields]
    rfl
  | f :: fs, x :: xs, h => by
    have hrest := countReq_fields_outside ext n fs xs
      (fun j g y (hg : fs[j]? = some g) (hy : xs[j]? = some y) =>
        h (j + 1) g y (by simpa using hg) (by simpa using hy))
    have hhead := h 0 f x (by simp) (by simp)
    rw [validateFields_cons, List.nil_append, countReq_append, hhead, hrest]

/-- If only position `i` can contribute `RequiredError`s naming `n`, the
loop's count equals that single field's count. -/
theorem countReq_fields_single (ext : Ext) (n : String) :
    ∀ (fs : List Fld) (xs : List Value) (i : Nat) (f : Fld) (x : Value),
      fs[i]? = some f → xs[i]? = some x →
      (∀ (j : Nat) (g : Fld) (y : Value), j ≠ i → fs[j]? = some g →
        xs[j]? = some y → countReqNamed n (fieldErrs ext g y) = 0) →
      countReqNamed n (validateFields ext [] fs xs) =
        countReqNamed n (fieldErrs ext f x)
  | [], _, i, f, x => by intro hf _ _; simp at hf
  | _ :: _, [], i, f, x => by intro _ hx _; simp at hx
  | f0 :: fs, x0 :: xs, 0, f, x => by
    intro hf hx hothers
    simp only [List.getElem?_cons_zero, Option.some.injEq] at hf hx
    subst hf; subst hx
    have hrest := countReq_fields_outside ext n fs xs
      (fun j g y (hg : fs[j]? = some g) (hy : xs[j]? = some y) =>
        hothers (j + 1) g y (by simp) (by simpa using hg) (by simpa using hy))
    rw [validateFields_cons, List.nil_append, countReq_append, hrest]
    omega
  | f0 :: fs, x0 :: xs, i + 1, f, x => by
    intro hf hx hothers
    simp only [List.getElem?_cons_succ] at hf hx
    have hhead := hothers 0 f0 x0 (by simp) (by simp) (by simp)
    have hrest := countReq_fields_single ext n fs xs i f x hf hx
      (fun j g y (hj : j ≠ i) (hg : fs[j]? = some g) (hy : xs[j]? = some y) =>
        hothers (j + 1) g y (by simpa using hj) (by simpa using hg)
          (by simpa using hy))
    rw [validateFields_cons, List.nil_append, countReq_append, hhead, hrest]
    simp

/-! ## Concrete fixtures (the record shapes of common_test.go) -/

/-- The `Person` record of common_test.go: `Name string form:"name"
binding:"Required"`, `Email string form:"email"`. -/
def personTy : Ftype :=
  .fStruct [.mk "Name" "name" "Required" false true .fString,
            .mk "Email" "email" "" false true .fString]

/-- The `EmbedPerson` record of common_test.go: one anonymous embedded
`*Person` field. -/
def embedPersonTy : Ftype :=
  .fStruct [.mk "Person" "" "" true true (.fPtr personTy)]

/-- The `Ratings []int form:"rating"` part of the `BlogPost` record. -/
def ratingsTy : Ftype :=
  .fStruct [.mk "Ratings" "rating" "" false true (.fSlice (.fInt 64))]

/-- The `Post` record of common_test.go: `Title string form:"title"
binding:"Required"`, `Content string form:"content"`. -/
def postTy : Ftype :=
  .fStruct [.mk "Title" "title" "Required" false true .fString,
            .mk "Content" "content" "" false true .fString]

/-- A record with a named nested `Person` field that itself carries the
`Required` rule (like `Author Person` of `BlogPost`, plus a rule). -/
def authorTy : Ftype :=
  .fStruct [.mk "Author" "" "Required" false true personTy]

/-! ## C1 -/

/-- C1 (code bug): binding `rating=1&rating=2&rating=notanumber` into a
`Ratings []int` field does fill the slice with length 3, indices 0 and 1 set
and index 2 left at zero — but the returned `Errors` is empty: the
`IntegerTypeError` that `setWithProperType` appends (second conjunct) goes
into its local by-value copy of the accumulator (binder.go line 82 passes
`bindErrors` by value and ignores it afterwards), so, contrary to the claim,
no coercion error is ever part of the value `Form` returns. -/
theorem c1_coercion_errors_dropped :
    Form ext0 none (.fPtr ratingsTy) (.vPtr (some (.vStruct [.vSlice none])))
        ⟨none, [("rating", ["1", "2", "notanumber"])]⟩ =
      (.vStruct [.vSlice (some [.vInt 1, .vInt 2, .vInt 0])], []) ∧
    (setWithProperType ext0 (.fInt 64) "notanumber" (.vInt 0) "rating" []).2 =
      [⟨["rating"], IntegerTypeError, "Value could not be parsed as integer"⟩] :=
  ⟨rfl, rfl⟩

/-! ## C2 -/

/-- C2 (counterexample): a POST request with empty Content-Type does not
take the form path — `Bind` classifies it as the empty-content-type
dispatch error. -/
theorem c2_counterexample :
    bindDispatch "POST" "" = .errEmpty ∧ Dispatch.errEmpty ≠ Dispatch.formPath :=
  ⟨rfl, by decide⟩

/-- The dispatch table as amended: an empty Content-Type yields the
empty-content-type error on POST/PUT and the form path on every other
method; a non-empty Content-Type goes to the matching format path and to
the unsupported-content-type error when no format substring matches. -/
def dispatchSpec (method contentType : String) : Dispatch :=
  if contentType = "" then
    if method = "POST" ∨ method = "PUT" then .errEmpty else .formPath
  else if goContains contentType "form-urlencoded" then .formPath
  else if goContains contentType "multipart/form-data" then .multipartPath
  else if goContains contentType "json" then .jsonPath
  else .errUnsupported

/-- C2 (amended): `Bind`'s dispatch coincides with the amended table
`dispatchSpec` for every method and Content-Type: in particular POST/PUT
with empty Content-Type is the "empty" dispatch error (not the form path),
the form path on empty Content-Type is taken exactly by the other methods,
and the "empty"/"unsupported" classifications arise only as `dispatchSpec`
describes. -/
theorem c2_dispatch_amended (method ct : String) :
    bindDispatch method ct = dispatchSpec method ct := by
  unfold bindDispatch dispatchSpec
  by_cases hct : ct = ""
  · subst hct
    by_cases hm : method = "POST" ∨ method = "PUT"
    · rw [if_pos (hm.elim Or.inl (fun h => Or.inr (Or.inl h))), if_pos rfl,
        if_pos hm]
      rfl
    · rw [if_neg (by tauto), if_pos rfl, if_neg hm]
  · rw [if_pos (Or.inr (Or.inr hct)), if_neg hct, if_neg hct]

/-! ## C10 -/

/-- C10 (code bug): when the upstream multipart state is unpopulated and the
streaming reader cannot be obtained, the `DeserializationError` is recorded
into `bindErrors` — but line 129 then dereferences the still-nil
`req.MultipartForm` and the call panics (result `none`) instead of
returning the recorded error.  The second conjunct shows the same call with
a populated multipart state returning normally, isolating the panic to the
failed-re-parse path the claim describes. -/
theorem c10_multipart_panics :
    MultipartForm ext0 none (.fPtr ratingsTy)
        (.vPtr (some (.vStruct [.vSlice none])))
        ⟨none, .error "no multipart boundary param in Content-Type"⟩ = none ∧
    MultipartForm ext0 none (.fPtr ratingsTy)
        (.vPtr (some (.vStruct [.vSlice none])))
        ⟨some ⟨[("rating", ["5"])], []⟩, .error "unused"⟩ =
      some (.vStruct [.vSlice (some [.vInt 5])], []) :=
  ⟨rfl, rfl⟩

/-! ## C3 -/

/-- C3 (counterexample): with an input bag containing no keys at all, binding
into an `EmbedPerson` whose embedded `*Person` was pre-set by the caller to
`&Person{Name: "d"}` does not leave those fields at their pre-bind values:
the unconditional re-allocation replaces the pointee with a fresh zero
record, nothing binds into it, and the collapse step resets the pointer to
nil — the caller's default is destroyed. -/
theorem c3_counterexample :
    mapForm ext0 [] [] true embedPersonTy
        (.vStruct [.vPtr (some (.vStruct [.vString "d", .vString ""]))]) =
      .vStruct [.vPtr none] ∧
    Value.vStruct [.vPtr none] ≠
      .vStruct [.vPtr (some (.vStruct [.vString "d", .vString ""]))] :=
  ⟨rfl, by simp⟩

/-- C3 (amended): for every field reached through plain (non-pointer) struct
nesting only — so not inside an anonymous embedded pointer-to-struct
substructure — that is itself neither a struct nor an anonymous pointer,
if its external key is absent from both the string-values and the
file-values mappings, binding leaves its value exactly as it was. -/
theorem c3_absent_key_frame (ext : Ext) (form : List (String × List String))
    (files : List (String × List Nat)) (cs : Bool)
    (hwf : wfBag form = true) (hwf2 : wfBag files = true) :
    ∀ (path : List Nat) (ty : Ftype) (v : Value) (f : Fld) (x : Value),
      fieldAt ty path = some f → valAt v path = some x →
      isStructTy f.ty = false → (f.anonymous && isPtrTy f.ty) = false →
      f.formTag ≠ "" →
      bagLookup form f.formTag = none → bagLookup files f.formTag = none →
      valAt (mapForm ext form files cs ty v) path = some x
  | [], ty, v, f, x => by
    intro hf
    cases ty <;> simp [fieldAt] at hf
  | [i], ty, v, f, x => by
    intro hf hx h1 h2 h3 h4 h5
    cases ty with
    | fStruct fs =>
      simp only [fieldAt] at hf
      cases v with
      | vStruct xs =>
        simp only [valAt] at hx
        cases hxs : xs[i]? with
        | none => rw [hxs] at hx; simp at hx
        | some y =>
          rw [hxs] at hx
          simp only [Option.some_bind, valAt, Option.some.injEq] at hx
          subst hx
          simp only [mapForm, valAt]
          rw [mapFields_get ext form files cs fs xs i f y hf hxs,
            mapField_untouched ext form files cs f y h1 h2 h4 h5]
          simp [valAt]
      | vInt a => simp [valAt] at hx
      | vUint a => simp [valAt] at hx
      | vBool a => simp [valAt] at hx
      | vFloat a => simp [valAt] at hx
      | vString a => simp [valAt] at hx
      | vFile a => simp [valAt] at hx
      | vFileNil => simp [valAt] at hx
      | vSlice a => simp [valAt] at hx
      | vPtr a => simp [valAt] at hx
    | fInt bits => simp [fieldAt] at hf
    | fUint bits => simp [fieldAt] at hf
    | fBool => simp [fieldAt] at hf
    | fFloat bits => simp [fieldAt] at hf
    | fString => simp [fieldAt] at hf
    | fFile => simp [fieldAt] at hf
    | fSlice et => simp [fieldAt] at hf
    | fPtr t => simp [fieldAt] at hf
  | i :: j :: rest, ty, v, f, x => by
    intro hf hx h1 h2 h3 h4 h5
    cases ty with
    | fStruct fs =>
      simp only [fieldAt] at hf
      cases hfs : fs[i]? with
      | none => rw [hfs] at hf; simp at hf
      | some g =>
        rw [hfs] at hf
        simp only [Option.some_bind] at hf
        cases v with
        | vStruct xs =>
          simp only [valAt] at hx
          cases hxs : xs[i]? with
          | none => rw [hxs] at hx; simp at hx
          | some y =>
            rw [hxs] at hx
            simp only [Option.some_bind] at hx
            simp only [mapForm, valAt]
            rw [mapFields_get ext form files cs fs xs i g y hfs hxs]
            simp only [Option.some_bind]
            obtain ⟨gn, gt, gb, ga, ge, gty⟩ := g
            simp only [Fld.ty] at hf
            cases gty with
            | fStruct gs =>
              cases y with
              | vStruct ys =>
                simp only [mapField]
                exact c3_absent_key_frame ext form files (cs && ge) hwf hwf2
                  (j :: rest) (.fStruct gs) (.vStruct ys) f x hf hx h1 h2 h3
                  h4 h5
              | vInt a => simp [valAt] at hx
              | vUint a => simp [valAt] at hx
              | vBool a => simp [valAt] at hx
              | vFloat a => simp [valAt] at hx
              | vString a => simp [valAt] at hx
              | vFile a => simp [valAt] at hx
              | vFileNil => simp [valAt] at hx
              | vSlice a => simp [valAt] at hx
              | vPtr a => simp [valAt] at hx
            | fInt bits => simp [fieldAt] at hf
            | fUint bits => simp [fieldAt] at hf
            | fBool => simp [fieldAt] at hf
            | fFloat bits => simp [fieldAt] at hf
            | fString => simp [fieldAt] at hf
            | fFile => simp [fieldAt] at hf
            | fSlice et => simp [fieldAt] at hf
            | fPtr t => simp [fieldAt] at hf
        | vInt a => simp [valAt] at hx
        | vUint a => simp [valAt] at hx
        | vBool a => simp [valAt] at hx
        | vFloat a => simp [valAt] at hx
        | vString a => simp [valAt] at hx
        | vFile a => simp [valAt] at hx
        | vFileNil => simp [valAt] at hx
        | vSlice a => simp [valAt] at hx
        | vPtr a => simp [valAt] at hx
    | fInt bits => simp [fieldAt] at hf
    | fUint bits => simp [fieldAt] at hf
    | fBool => simp [fieldAt] at hf
    | fFloat bits => simp [fieldAt] at hf
    | fString => simp [fieldAt] at hf
    | fFile => simp [fieldAt] at hf
    | fSlice et => simp [fieldAt] at hf
    | fPtr t => simp [fieldAt] at hf

/-- C3 (witness): a record with a nested `Person` whose `Email` key is
absent from the bag keeps the caller-set default `"keep"` in that field
while the sibling `Name` is bound. -/
theorem c3_witness :
    valAt (mapForm ext0 [("name", ["N"])] [] true
        (.fStruct [.mk "Author" "" "" false true personTy])
        (.vStruct [.vStruct [.vString "", .vString "keep"]])) [0, 1] =
      some (.vString "keep") :=
  c3_absent_key_frame ext0 [("name", ["N"])] [] true rfl rfl [0, 1]
    (.fStruct [.mk "Author" "" "" false true personTy])
    (.vStruct [.vStruct [.vString "", .vString "keep"]])
    (.mk "Email" "email" "" false true .fString) (.vString "keep")
    rfl rfl rfl rfl (by decide) rfl rfl

/-! ## C4 -/

/-- C4 (counterexample): the anonymous embedded pointer is not "allocated
only if nil": here it is non-nil with non-zero contents (`Name = "keep"`)
and the bag is empty, yet binding replaces the pointee with a fresh zero
record and collapses the pointer to nil, discarding the existing record. -/
theorem c4_counterexample :
    mapField ext0 [] [] true (.mk "Person" "" "" true true (.fPtr personTy))
        (.vPtr (some (.vStruct [.vString "keep", .vString ""]))) =
      .vPtr none ∧
    Value.vPtr none ≠ .vPtr (some (.vStruct [.vString "keep", .vString ""])) :=
  ⟨rfl, by simp⟩

/-- C4 (amended): for an anonymous embedded pointer-to-struct field, binding
(1) is independent of the pointer's prior value — the field is
unconditionally overwritten with a freshly allocated zero record before the
recursion, discarding any existing pointee; (2) the pointer ends up nil
exactly when the recursion left every reachable field of the fresh record
at its zero value; and (3) otherwise it points at the recursion's result. -/
theorem c4_embedded_ptr (ext : Ext) (form : List (String × List String))
    (files : List (String × List Nat)) (cs : Bool) (nm ftag btag : String)
    (ex : Bool) (inner : Ftype) (v1 v2 : Value) :
    mapField ext form files cs (.mk nm ftag btag true ex (.fPtr inner)) v1 =
      mapField ext form files cs (.mk nm ftag btag true ex (.fPtr inner)) v2 ∧
    (mapField ext form files cs (.mk nm ftag btag true ex (.fPtr inner)) v1 =
        .vPtr none ↔
      deepEqual (mapForm ext form files (cs && ex) inner (zeroVal inner))
        (zeroVal inner) = true) ∧
    (deepEqual (mapForm ext form files (cs && ex) inner (zeroVal inner))
        (zeroVal inner) = false →
      mapField ext form files cs (.mk nm ftag btag true ex (.fPtr inner)) v1 =
        .vPtr (some (mapForm ext form files (cs && ex) inner
          (zeroVal inner)))) := by
  refine ⟨by simp [mapField], ?_, ?_⟩
  · by_cases hm : deepEqual (mapForm ext form files (cs && ex) inner
        (zeroVal inner)) (zeroVal inner) = true
    · simp [mapField, hm]
    · simp [mapField, hm]
  · intro hm
    simp [mapField, hm]

/-- C4 (witness): with `name=x` in the bag and a nil embedded pointer, the
recursion result is non-zero, so the pointer ends up pointing at the bound
fresh record. -/
theorem c4_witness :
    mapField ext0 [("name", ["x"])] [] true
        (.mk "Person" "" "" true true (.fPtr personTy)) (.vPtr none) =
      .vPtr (some (.vStruct [.vString "x", .vString ""])) := by
  have h := (c4_embedded_ptr ext0 [("name", ["x"])] [] true "Person" "" ""
    true personTy (.vPtr none) (.vPtr none)).2.2 (by rfl)
  exact h.trans rfl

/-! ## C5 -/

/-- C5: a tagged slice field whose key matches `N > 0` string values is set
to a freshly built slice of length exactly `N` whose `j`-th element is the
result of coercing the `j`-th input independently into a zeroed element (a
failed element stays at the element type's zero value without affecting the
others, as `setWithProperType` leaves the fresh element untouched on a
coercion error). -/
theorem c5_repeated_key_slice (ext : Ext) (form : List (String × List String))
    (files : List (String × List Nat)) (fs : List Fld) (xs : List Value)
    (i : Nat) (nm ftag btag : String) (anon : Bool) (et : Ftype)
    (vals : List String) (x : Value)
    (hf : fs[i]? = some (.mk nm ftag btag anon true (.fSlice et)))
    (hx : xs[i]? = some x)
    (htag : ftag ≠ "")
    (hvals : bagLookup form ftag = some vals)
    (hne : vals ≠ []) :
    valAt (mapForm ext form files true (.fStruct fs) (.vStruct xs)) [i] =
      some (.vSlice (some (vals.map fun s =>
        (setWithProperType ext et s (zeroVal et) ftag []).1))) ∧
    (vals.map fun s =>
      (setWithProperType ext et s (zeroVal et) ftag []).1).length =
      vals.length := by
  refine ⟨?_, by simp⟩
  have hfld : mapField ext form files true
      (.mk nm ftag btag anon true (.fSlice et)) x =
      .vSlice (some (vals.map fun s =>
        (setWithProperType ext et s (zeroVal et) ftag []).1)) := by
    have hl : vals.length > 0 := List.length_pos.mpr hne
    simp [mapField, mapTagged, htag, hvals, hl]
  simp only [mapForm, valAt]
  rw [mapFields_get ext form files true fs xs i _ x hf hx, hfld]
  simp [valAt]

/-- C5 (witness): binding `rating=1&rating=2&rating=notanumber` into the
`Ratings []int` field yields a slice of length 3 with elements 1, 2 and 0 —
the failed third element does not prevent the first two from being set. -/
theorem c5_witness :
    valAt (mapForm ext0 [("rating", ["1", "2", "notanumber"])] [] true
        ratingsTy (.vStruct [.vSlice none])) [0] =
      some (.vSlice (some [.vInt 1, .vInt 2, .vInt 0])) := by
  have h := (c5_repeated_key_slice ext0 [("rating", ["1", "2", "notanumber"])]
    [] [.mk "Ratings" "rating" "" false true (.fSlice (.fInt 64))]
    [.vSlice none] 0 "Ratings" "rating" "" false (.fInt 64)
    ["1", "2", "notanumber"] (.vSlice none) rfl rfl (by decide) rfl
    (by decide)).1
  exact h.trans rfl

/-! ## C6 -/

/-- The function `mapTagged` never writes a field that is not settable-and-exported. -/
theorem mapTagged_unexported (ext : Ext) (form : List (String × List String))
    (files : List (String × List Nat)) (cs : Bool) (ftag : String)
    (ty : Ftype) (x : Value) :
    mapTagged ext form files cs ftag false ty x = x := by
  unfold mapTagged
  split_ifs with h1 h2
  · rfl
  · rfl
  · exact absurd (by simp) h2

/-- C6 (counterexample): the binder does not skip a field carrying the
ignore marker — `form:"-"` is treated as the external key `"-"`, so a bag
containing that literal key writes the field. -/
theorem c6_counterexample :
    mapField ext0 [("-", ["x"])] [] true
        (.mk "Ignored" "-" "" false true .fString) (.vString "") =
      .vString "x" ∧
    Value.vString "x" ≠ .vString "" :=
  ⟨rfl, by simp⟩

/-- The function `mapTagged` never writes a field reached through a
non-settable access path, whatever the field's own export flag. -/
theorem mapTagged_not_settable (ext : Ext) (form : List (String × List String))
    (files : List (String × List Nat)) (ftag : String) (ex : Bool)
    (ty : Ftype) (x : Value) :
    mapTagged ext form files false ftag ex ty x = x := by
  unfold mapTagged
  split_ifs with h1 h2
  · rfl
  · rfl
  · exact absurd (by simp) h2

mutual
/-- A type/value pair whose struct shape matches level by level and contains
no anonymous embedded pointer field anywhere the binder walks.  On an
anonymous embedded pointer reached through a non-settable path Go's
`reflect.Value.Set` (binder.go line 285) would panic, so the non-settable
walk is characterised only away from that corner. -/
def noEmbeddedPtr : Ftype → Value → Bool
  | .fStruct fs, .vStruct xs => noEmbeddedPtrFields fs xs
  | _, _ => true

/-- Field-list form of `noEmbeddedPtr`: equal lengths, no anonymous pointer
field, and the condition holds recursively at each field. -/
def noEmbeddedPtrFields : List Fld → List Value → Bool
  | [], [] => true
  | .mk _ _ _ anon _ ty :: fs, x :: xs =>
    (match ty with
     | .fPtr _ => !anon
     | _ => true) && noEmbeddedPtr ty x && noEmbeddedPtrFields fs xs
  | _, _ => false
end

mutual
/-- The binder walk through a non-settable access path writes nothing: with
`canSet = false` (the path has crossed an unexported field) `mapForm` is the
identity, for every bag, on every shape without anonymous embedded
pointers. -/
theorem mapForm_not_settable (ext : Ext) (form : List (String × List String))
    (files : List (String × List Nat)) (ty : Ftype) (v : Value)
    (h : noEmbeddedPtr ty v = true) :
    mapForm ext form files false ty v = v := by
  unfold mapForm
  split
  · next fs xs =>
    rw [mapFields_not_settable ext form files fs xs
      (by simpa [noEmbeddedPtr] using h)]
  · rfl

/-- Field-loop form of `mapForm_not_settable`. -/
theorem mapFields_not_settable (ext : Ext) (form : List (String × List String))
    (files : List (String × List Nat)) (fs : List Fld) (xs : List Value)
    (h : noEmbeddedPtrFields fs xs = true) :
    mapFields ext form files false fs xs = xs := by
  match fs, xs with
  | [], [] => simp [mapFields]
  | [], _ :: _ => simp [noEmbeddedPtrFields] at h
  | _ :: _, [] => simp [noEmbeddedPtrFields] at h
  | .mk nm tg bt anon ex ty :: fs, x :: xs =>
    simp only [noEmbeddedPtrFields, Bool.and_eq_true] at h
    obtain ⟨⟨h1, h2⟩, h3⟩ := h
    simp only [mapFields]
    rw [mapFields_not_settable ext form files fs xs h3]
    congr 1
    cases ty with
    | fPtr inner =>
      have ha : anon = false := by simpa using h1
      subst ha
      simp [mapField, mapTagged_not_settable]
    | fStruct gs =>
      simp only [mapField, Bool.false_and]
      exact mapForm_not_settable ext form files (.fStruct gs) x h2
    | fInt bits => simp [mapField, mapTagged_not_settable]
    | fUint bits => simp [mapField, mapTagged_not_settable]
    | fBool => simp [mapField, mapTagged_not_settable]
    | fFloat bits => simp [mapField, mapTagged_not_settable]
    | fString => simp [mapField, mapTagged_not_settable]
    | fFile => simp [mapField, mapTagged_not_settable]
    | fSlice et => simp [mapField, mapTagged_not_settable]
end

/-- C6 (amended): how each pass treats the ignore marker and unexported
fields, per field shape.  Binder: (1) an unexported leaf (non-struct,
non-anonymous-pointer) field is never written; (2) an unexported
struct-kind field is recursed into, but nothing reachable through it is
written — settability does not propagate — so its value is unchanged (on
shapes without anonymous embedded pointers, where Go would panic instead);
(5) for a leaf field the tag `"-"` is no marker but the literal external
key: with no `"-"` key in either mapping the field is untouched; (6) for a
struct-kind field the binder recurses *before* ever reading the form tag,
so the tag — the ignore marker included — is never consulted and the field
is still bound through its inner keys.  Validator: (3) unexported fields
and (4) fields tagged `form:"-"` contribute nothing at all (neither rule
errors nor nested recursion). -/
theorem c6_skip_rules (ext : Ext) (form : List (String × List String))
    (files : List (String × List Nat)) (cs : Bool) (f : Fld) (x : Value) :
    (f.exported = false → isStructTy f.ty = false →
      (f.anonymous && isPtrTy f.ty) = false →
      mapField ext form files cs f x = x) ∧
    (∀ gs, f.exported = false → f.ty = .fStruct gs →
      noEmbeddedPtr (.fStruct gs) x = true →
      mapField ext form files cs f x = x) ∧
    (f.exported = false → fieldErrs ext f x = []) ∧
    (f.formTag = "-" → fieldErrs ext f x = []) ∧
    (f.formTag = "-" → bagLookup form "-" = none → bagLookup files "-" = none →
      isStructTy f.ty = false → (f.anonymous && isPtrTy f.ty) = false →
      mapField ext form files cs f x = x) ∧
    (∀ gs, f.ty = .fStruct gs →
      mapField ext form files cs f x =
        mapForm ext form files (cs && f.exported) (.fStruct gs) x) := by
  obtain ⟨nm, ftag, btag, anon, ex, ty⟩ := f
  refine ⟨?_, ?_, ?_, ?_, ?_, ?_⟩
  · intro he h1 h2
    simp only [Fld.exported] at he
    simp only [Fld.ty] at h1
    simp only [Fld.anonymous, Fld.ty] at h2
    subst he
    cases ty with
    | fStruct fs => simp [isStructTy] at h1
    | fPtr inner =>
      have ha : anon = false := by simpa [isPtrTy] using h2
      subst ha
      simp [mapField, mapTagged_unexported]
    | fInt bits => simp [mapField, mapTagged_unexported]
    | fUint bits => simp [mapField, mapTagged_unexported]
    | fBool => simp [mapField, mapTagged_unexported]
    | fFloat bits => simp [mapField, mapTagged_unexported]
    | fString => simp [mapField, mapTagged_unexported]
    | fFile => simp [mapField, mapTagged_unexported]
    | fSlice et => simp [mapField, mapTagged_unexported]
  · intro gs he hty hok
    simp only [Fld.exported] at he
    simp only [Fld.ty] at hty
    subst he; subst hty
    simp only [mapField, Bool.and_false]
    exact mapForm_not_settable ext form files (.fStruct gs) x hok
  · intro he
    simp only [Fld.exported] at he
    subst he
    simp [fieldErrs, nestedErrsOf, ruleErrsOf, skipField, Fld.exported]
  · intro ht
    simp only [Fld.formTag] at ht
    subst ht
    simp [fieldErrs, nestedErrsOf, ruleErrsOf, skipField, Fld.formTag]
  · intro ht hform hfiles h1 h2
    simp only [Fld.formTag] at ht
    subst ht
    exact mapField_untouched ext form files cs _ x h1 h2
      (by simpa [Fld.formTag] using hform)
      (by simpa [Fld.formTag] using hfiles)
  · intro gs hty
    simp only [Fld.ty] at hty
    subst hty
    simp only [mapField, Fld.exported]

/-- C6 (witness): an unexported tagged leaf field is not written even though
its key is in the bag; a `form:"-"` field contributes no validator errors;
an unexported nested-struct field is recursed into but emerges unchanged
although its inner key is in the bag; and an exported nested-struct field
tagged `form:"-"` is nevertheless bound through its inner `name` key — with
no `"-"` key in the bag at all. -/
theorem c6_witness :
    mapField ext0 [("unexported", ["x"])] [] true
        (.mk "unexported" "unexported" "" false false .fString)
        (.vString "") = .vString "" ∧
    fieldErrs ext0 (.mk "Ignored" "-" "Required" false true .fString)
      (.vString "") = [] ∧
    mapField ext0 [("name", ["x"])] [] true
        (.mk "author" "" "" false false personTy)
        (.vStruct [.vString "", .vString ""]) =
      .vStruct [.vString "", .vString ""] ∧
    mapField ext0 [("name", ["x"])] [] true
        (.mk "Author" "-" "" false true personTy)
        (.vStruct [.vString "", .vString ""]) =
      .vStruct [.vString "x", .vString ""] :=
  ⟨(c6_skip_rules ext0 [("unexported", ["x"])] [] true
      (.mk "unexported" "unexported" "" false false .fString)
      (.vString "")).1 rfl rfl rfl,
   (c6_skip_rules ext0 [] [] true
      (.mk "Ignored" "-" "Required" false true .fString)
      (.vString "")).2.2.2.1 rfl,
   (c6_skip_rules ext0 [("name", ["x"])] [] true
      (.mk "author" "" "" false false personTy)
      (.vStruct [.vString "", .vString ""])).2.1
     [.mk "Name" "name" "Required" false true .fString,
      .mk "Email" "email" "" false true .fString] rfl rfl rfl,
   ((c6_skip_rules ext0 [("name", ["x"])] [] true
      (.mk "Author" "-" "" false true personTy)
      (.vStruct [.vString "", .vString ""])).2.2.2.2.2
     [.mk "Name" "name" "Required" false true .fString,
      .mk "Email" "email" "" false true .fString] rfl).trans rfl⟩

/-! ## C7 -/

/-- C7 (counterexample): for a record whose `Author Person` field both
carries the `Required` rule itself and contains a `Required` inner `Name`,
the validator emits the nested `Name` violation before the field's own
`Author` violation — the recursion into the nested structure (binder.go
line 208) runs before the field's own rule matching (line 212), contrary to
the claimed order. -/
theorem c7_counterexample :
    validateStruct ext0 [] authorTy
        (.vStruct [.vStruct [.vString "", .vString ""]]) =
      [⟨["Name"], RequiredError, "Required"⟩,
       ⟨["Author"], RequiredError, "Required"⟩] ∧
    (⟨["Name"], RequiredError, "Required"⟩ : Err) ≠
      ⟨["Author"], RequiredError, "Required"⟩ :=
  ⟨rfl, by decide⟩

/-- C7 (amended): discovery order of the returned errors.  (1) In `Form`'s
result the surviving binder-pass errors (the deserialization error of
`ParseForm`, if any) precede all validator-pass errors.  (2) Within the
validator pass the fields contribute in declaration order, and for each
field the violations found by recursing into its nested structure precede
the field's own built-in rule violations.  (3) The extensibility hook runs
exactly once for a (non-slice) target, after the whole built-in pass, as
the last transformation of the error list — nested recursive calls (which
go through `validateStruct` only) never invoke it. -/
theorem c7_error_order (ext : Ext) (h : Errors → Errors) (fs : List Fld)
    (xs : List Value) (req : FormReq) (f : Fld) (x : Value) (fs2 : List Fld)
    (xs2 : List Value) (v : Value) :
    (Form ext (some h) (.fPtr (.fStruct fs)) (.vPtr (some (.vStruct xs)))
        req).2 =
      (match req.parseErr with
       | some e => [⟨[], DeserializationError, e⟩]
       | none => []) ++
      validate ext (some h) (.fStruct fs)
        (mapForm ext req.form [] true (.fStruct fs) (.vStruct xs)) ∧
    validateFields ext [] (f :: fs2) (x :: xs2) =
      nestedErrsOf ext f x ++ ruleErrsOf ext f x ++
        validateFields ext [] fs2 xs2 ∧
    validate ext (some h) (.fStruct fs) v =
      h (validateStruct ext [] (.fStruct fs) v) := by
  refine ⟨?_, ?_, ?_⟩
  · simp [Form]
  · rw [validateFields_cons]
    simp [fieldErrs]
  · simp [validate]

/-! ## C8 -/

/-- C8: for a record with an exported, non-ignored field whose `binding` tag
contains the `Required` rule exactly once, and whose name is not also
produced by any other field's contribution (other fields' rules or nested
recursion — the hypotheses `hnested`/`hothers`, which pin down "naming that
field" in a flat error format that records only a name string), the
validation pass emits exactly one `RequiredError` naming the field when its
value equals the zero value of its type, and none otherwise. -/
theorem c8_required_exactly_once (ext : Ext) (fs : List Fld)
    (xs : List Value) (i : Nat) (name ftag btag : String) (anon : Bool)
    (ty : Ftype) (x : Value)
    (hf : fs[i]? = some (.mk name ftag btag anon true ty))
    (hx : xs[i]? = some x)
    (hignore : ftag ≠ "-")
    (hreq : (splitSemi btag).count "Required" = 1)
    (hnested : countReqNamed name (validateStruct ext [] ty x) = 0)
    (hothers : ∀ (j : Nat) (g : Fld) (y : Value), j ≠ i → fs[j]? = some g →
      xs[j]? = some y → countReqNamed name (fieldErrs ext g y) = 0) :
    countReqNamed name (validate ext none (.fStruct fs) (.vStruct xs)) =
      if deepEqual (zeroVal ty) x = true then 1 else 0 := by
  have hv : validate ext none (.fStruct fs) (.vStruct xs)
      = validateFields ext [] fs xs := by
    simp [validate, validateStruct]
  rw [hv, countReq_fields_single ext name fs xs i _ x hf hx hothers]
  have hskip : skipField (.mk name ftag btag anon true ty) = false := by
    simp [skipField, Fld.formTag, Fld.exported, hignore]
  rw [show fieldErrs ext (.mk name ftag btag anon true ty) x =
      (if nestedCond (.mk name ftag btag anon true ty) x then
        validateStruct ext [] ty x
       else []) ++
      ruleLoop ext [] name ty x (splitSemi btag) from by
    simp [fieldErrs, nestedErrsOf, ruleErrsOf, hskip, Fld.ty, Fld.name,
      Fld.bindingTag]]
  rw [countReq_append, countReq_ruleLoop ext name name ty x (splitSemi btag)]
  have hn : countReqNamed name
      (if nestedCond (.mk name ftag btag anon true ty) x then
        validateStruct ext [] ty x
       else []) = 0 := by
    by_cases hc : nestedCond (.mk name ftag btag anon true ty) x = true
    · rw [if_pos hc]
      exact hnested
    · rw [if_neg hc]
      rfl
  rw [hn, hreq]
  by_cases hz : deepEqual (zeroVal ty) x = true
  · simp [hz]
  · simp [hz]

/-- C8 (witness): validating a `Post` with empty `Title` (Required) and
non-empty `Content` yields exactly one `RequiredError` naming `Title`; with
`Title` set it yields none. -/
theorem c8_witness :
    countReqNamed "Title"
      (validate ext0 none postTy (.vStruct [.vString "", .vString "w"])) = 1 ∧
    countReqNamed "Title"
      (validate ext0 none postTy (.vStruct [.vString "T", .vString "w"])) = 0 := by
  have hothers1 : ∀ (j : Nat) (g : Fld) (y : Value), j ≠ 0 →
      [Fld.mk "Title" "title" "Required" false true .fString,
       Fld.mk "Content" "content" "" false true .fString][j]? = some g →
      ([Value.vString "", Value.vString "w"])[j]? = some y →
      countReqNamed "Title" (fieldErrs ext0 g y) = 0 := by
    intro j g y hj hg hy
    match j with
    | 0 => exact absurd rfl hj
    | 1 =>
      simp only [List.getElem?_cons_succ, List.getElem?_cons_zero,
        Option.some.injEq] at hg hy
      subst hg; subst hy
      rfl
    | j + 2 => simp at hg
  have hothers2 : ∀ (j : Nat) (g : Fld) (y : Value), j ≠ 0 →
      [Fld.mk "Title" "title" "Required" false true .fString,
       Fld.mk "Content" "content" "" false true .fString][j]? = some g →
      ([Value.vString "T", Value.vString "w"])[j]? = some y →
      countReqNamed "Title" (fieldErrs ext0 g y) = 0 := by
    intro j g y hj hg hy
    match j with
    | 0 => exact absurd rfl hj
    | 1 =>
      simp only [List.getElem?_cons_succ, List.getElem?_cons_zero,
        Option.some.injEq] at hg hy
      subst hg; subst hy
      rfl
    | j + 2 => simp at hg
  constructor
  · have h := c8_required_exactly_once ext0
      [.mk "Title" "title" "Required" false true .fString,
       .mk "Content" "content" "" false true .fString]
      [.vString "", .vString "w"] 0 "Title" "title" "Required" false
      .fString (.vString "") rfl rfl (by decide) (by decide) rfl hothers1
    exact h.trans rfl
  · have h := c8_required_exactly_once ext0
      [.mk "Title" "title" "Required" false true .fString,
       .mk "Content" "content" "" false true .fString]
      [.vString "T", .vString "w"] 0 "Title" "title" "Required" false
      .fString (.vString "T") rfl rfl (by decide) (by decide) rfl hothers2
    exact h.trans rfl

/-! ## C9 -/

/-- C9 (counterexample): coercing the literal `"false"` into a boolean field
currently holding `true` neither writes the field (it stays `true`, though a
write would store `false`) nor appends any error — the code only ever calls
`SetBool(true)`, so a parsed `false` is deliberately not written.  This
refutes "either writes the field or appends a typed coercion error". -/
theorem c9_counterexample :
    setWithProperType ext0 .fBool "false" (.vBool true) "f" [] =
      (.vBool true, []) ∧
    Value.vBool true ≠ .vBool false :=
  ⟨rfl, by simp⟩

/-- C9 (amended): `setWithProperType` always returns normally, and on every
input it either leaves the accumulator unchanged (writing the field or — for
boolean literals parsing to `false` and for unsupported kinds — deliberately
leaving it untouched), or appends exactly one typed coercion error and
leaves the field unchanged.  For the signed and unsigned integer kinds of
any declared width, a literal that parses as a 64-bit value is written
truncated to the field's width (two's complement) — an out-of-width literal
never aborts the computation. -/
theorem c9_total_coercion (ext : Ext) (kind : Ftype) (val : String)
    (field : Value) (name : String) (errs : Errors) :
    ((setWithProperType ext kind val field name errs).2 = errs ∨
      ∃ e, (setWithProperType ext kind val field name errs).2 = errs ++ [e] ∧
        (setWithProperType ext kind val field name errs).1 = field) ∧
    (∀ (bits : Nat) (n : Int), kind = .fInt bits →
      goParseInt64 (if val = "" then "0" else val) = some n →
      setWithProperType ext kind val field name errs =
        (.vInt (wrapSigned bits n), errs)) ∧
    (∀ (bits : Nat) (n : Nat), kind = .fUint bits →
      goParseUint64 (if val = "" then "0" else val) = some n →
      setWithProperType ext kind val field name errs =
        (.vUint (wrapUnsigned bits n), errs)) := by
  refine ⟨?_, ?_, ?_⟩
  · cases kind with
    | fInt bits =>
      simp only [setWithProperType]
      cases goParseInt64 (if val = "" then "0" else val) with
      | none =>
        exact Or.inr ⟨⟨[name], IntegerTypeError,
          "Value could not be parsed as integer"⟩, by simp [addErr], rfl⟩
      | some n => exact Or.inl rfl
    | fUint bits =>
      simp only [setWithProperType]
      cases goParseUint64 (if val = "" then "0" else val) with
      | none =>
        exact Or.inr ⟨⟨[name], IntegerTypeError,
          "Value could not be parsed as unsigned integer"⟩,
          by simp [addErr], rfl⟩
      | some n => exact Or.inl rfl
    | fBool =>
      simp only [setWithProperType]
      by_cases hon : val = "on"
      · rw [if_pos hon]
        exact Or.inl rfl
      · rw [if_neg hon]
        cases goParseBool (if val = "" then "false" else val) with
        | none =>
          exact Or.inr ⟨⟨[name], BooleanTypeError,
            "Value could not be parsed as boolean"⟩, by simp [addErr], rfl⟩
        | some b =>
          cases b with
          | true => exact Or.inl rfl
          | false => exact Or.inl rfl
    | fFloat bits =>
      simp only [setWithProperType]
      cases ext.parseFloat (if val = "" then "0.0" else val) bits with
      | none =>
        exact Or.inr ⟨⟨[name], FloatTypeError,
          if bits = 32 then "Value could not be parsed as 32-bit float"
          else "Value could not be parsed as 64-bit float"⟩,
          by simp [addErr], rfl⟩
      | some q => exact Or.inl rfl
    | fString => exact Or.inl rfl
    | fFile => exact Or.inl rfl
    | fSlice et => exact Or.inl rfl
    | fPtr t => exact Or.inl rfl
    | fStruct fs => exact Or.inl rfl
  · intro bits n hk hp
    subst hk
    simp only [setWithProperType, hp]
  · intro bits n hk hp
    subst hk
    simp only [setWithProperType, hp]

/-- C9 (witness): the literal `"300"` bound into an `int8` field parses as
300 and is written truncated to `44 = 300 - 256`, with no error and no
abort. -/
theorem c9_witness :
    setWithProperType ext0 (.fInt 8) "300" (.vInt 0) "n" [] =
      (.vInt 44, []) := by
  have h := (c9_total_coercion ext0 (.fInt 8) "300" (.vInt 0) "n" []).2.1
    8 300 rfl (by rfl)
  exact h.trans (by norm_num [wrapSigned])

end Binder
